import Mathlib

set_option autoImplicit false

/-!
Verification development for the arc-detection cache orchestration engine
(`src/cache/manager.py` and `src/cache/config_server.py`).

The Python classes are shallowly embedded as Lean definitions:

* Python `dict`s become association lists (`Dict`), with key lookup
  returning the first matching entry (dict keys are unique, so first-match
  lookup, replace-first assignment and filter-all removal agree with dict
  semantics).
* `CacheStatus.status` becomes the `Status` structure.  The
  `last_updated` timestamp, the `started` / `completed` / `failed`
  timestamps and the stored `cache_window` entry of the status document
  are environment-supplied values that no modeled operation reads back;
  they are abstracted away.  The `generation_time` of a completed record
  and the `error` of a failed record are kept.
* Python floats in the statistics are modeled as rationals (the arithmetic
  performed on them by the code is exact on the values of interest).
* The non-reentrant `threading.Lock` and the fallible status-file write
  are modeled explicitly for the lock-level operations (`...L` suffix):
  a blocked acquisition of an already-held lock is a non-returning call,
  rendered as `none`; an exception raised by the write is caught by the
  `try`/`except` inside `save_status`.
-/

namespace ArcCache

/-- Association-list model of a Python `dict`. -/
abbrev Dict (α β : Type) := List (α × β)

/-- `m[k]` lookup: first entry whose key equals `k` (dict keys are unique). -/
def dictGet {α β : Type} [DecidableEq α] : Dict α β → α → Option β
  | [], _ => none
  | p :: m, k => if p.1 = k then some p.2 else dictGet m k

/-- `k in m` membership test. -/
def dictContains {α β : Type} [DecidableEq α] (m : Dict α β) (k : α) : Bool :=
  (dictGet m k).isSome

/-- `m[k] = v` assignment: replace the (unique) entry for `k`, or append. -/
def dictSet {α β : Type} [DecidableEq α] : Dict α β → α → β → Dict α β
  | [], k, v => [(k, v)]
  | p :: m, k, v => if p.1 = k then (k, v) :: m else p :: dictSet m k v

/-- `del m[k]` / `m.pop(k, None)`: remove the entry for key `k`
(keys are unique, so removal of a key is a filter). -/
def dictRemove {α β : Type} [DecidableEq α] (m : Dict α β) (k : α) : Dict α β :=
  m.filter (fun p => decide (p.1 ≠ k))

/-- The `stats` sub-document of `CacheStatus.status`. -/
structure Stats where
  totalGenerated : Nat
  cacheHits : Nat
  cacheMisses : Nat
  generationTimeAvg : ℚ

/-- In-memory `CacheStatus.status` document (timestamps abstracted, see above).
`inProgress` keeps, per file id, the set of cache-type keys present
(the `started` timestamp payload is abstracted). -/
structure Status where
  currentFileId : Option Nat
  generationQueue : List Nat
  completed : Dict Nat (Dict String ℚ)
  failed : Dict Nat (Dict String String)
  inProgress : Dict Nat (List String)
  stats : Stats

/-- The document installed by `CacheStatus.__init__`. -/
def initialStatus : Status where
  currentFileId := none
  generationQueue := []
  completed := []
  failed := []
  inProgress := []
  stats := { totalGenerated := 0, cacheHits := 0, cacheMisses := 0, generationTimeAvg := 0 }

/-- In-memory mutation of `CacheStatus.update_current_file`. -/
def updateCurrentFile (s : Status) (fileId : Nat) : Status :=
  { s with currentFileId := some fileId }

/-- In-memory mutation of `CacheStatus.add_to_queue`:
`current_queue = set(queue)`; keep the arguments not already present;
extend the queue with them. -/
def addToQueue (s : Status) (fileIds : List Nat) : Status :=
  let currentQueue := s.generationQueue
  let newFiles := fileIds.filter (fun fid => !decide (fid ∈ currentQueue))
  { s with generationQueue := s.generationQueue ++ newFiles }

/-- In-memory mutation of `CacheStatus.mark_in_progress`:
ensure `in_progress[file_id]` exists, then set the `cache_type` key. -/
def markInProgress (s : Status) (fileId : Nat) (cacheType : String) : Status :=
  let inner := (dictGet s.inProgress fileId).getD []
  let inner2 := if cacheType ∈ inner then inner else inner ++ [cacheType]
  { s with inProgress := dictSet s.inProgress fileId inner2 }

/-- The removal block shared verbatim by `mark_completed` and
`mark_failed`: if `file_id` is in `in_progress`, pop `cache_type` from its
entry and delete the entry when it becomes empty. -/
def popInProgress (m : Dict Nat (List String)) (fileId : Nat) (cacheType : String) :
    Dict Nat (List String) :=
  match dictGet m fileId with
  | none => m
  | some inner =>
      if (inner.filter (fun ty => decide (ty ≠ cacheType))).isEmpty then dictRemove m fileId
      else dictSet m fileId (inner.filter (fun ty => decide (ty ≠ cacheType)))

/-- In-memory mutation of `CacheStatus.mark_completed`:
pop `cache_type` from `in_progress[file_id]` (deleting the file entry if it
becomes empty), record the completion, then update the statistics:
`total += 1; avg = (avg * (total - 1) + generation_time) / total`. -/
def markCompleted (s : Status) (fileId : Nat) (cacheType : String) (generationTime : ℚ) :
    Status :=
  let ip := popInProgress s.inProgress fileId cacheType
  let cinner := (dictGet s.completed fileId).getD []
  let comp := dictSet s.completed fileId (dictSet cinner cacheType generationTime)
  let total := s.stats.totalGenerated + 1
  let currentAvg := s.stats.generationTimeAvg
  let avg := (currentAvg * ((total : ℚ) - 1) + generationTime) / (total : ℚ)
  { s with inProgress := ip, completed := comp,
           stats := { s.stats with totalGenerated := total, generationTimeAvg := avg } }

/-- In-memory mutation of `CacheStatus.mark_failed`:
pop `cache_type` from `in_progress[file_id]` (deleting the file entry if it
becomes empty), then record the failure. -/
def markFailed (s : Status) (fileId : Nat) (cacheType : String) (error : String) : Status :=
  let ip := popInProgress s.inProgress fileId cacheType
  let finner := (dictGet s.failed fileId).getD []
  { s with inProgress := ip,
           failed := dictSet s.failed fileId (dictSet finner cacheType error) }

/-- `CacheStatus.is_cached`: `file_id in completed and cache_type in completed[file_id]`. -/
def isCached (s : Status) (fileId : Nat) (cacheType : String) : Bool :=
  match dictGet s.completed fileId with
  | some inner => dictContains inner cacheType
  | none => false

/-- Whether `(fileId, cacheType)` currently appears in the `in_progress` map. -/
def inProgressContains (s : Status) (fileId : Nat) (cacheType : String) : Bool :=
  match dictGet s.inProgress fileId with
  | some inner => decide (cacheType ∈ inner)
  | none => false

/-! ### Lock-level model of the mutating operations

`CacheStatus.lock` is a non-reentrant `threading.Lock`.  Every mutating
operation runs `with self.lock:` and calls `self.save_status()` while still
holding the lock; `save_status` itself runs `with self.lock:` again.
Acquiring a lock that is already held blocks forever (it is not an
exception, so no `try`/`except` sees it); we render a call that never
returns as `none`. -/

/-- `CacheStatus.save_status`, entered with `lockHeld` telling whether the
process-wide lock is already held by the caller and `writeFails` telling
whether the status-file write raises.  When the lock is free, the write is
attempted inside `try`/`except`: success and failure both end with a normal
return and the in-memory document unchanged. -/
def saveStatusL (lockHeld : Bool) (writeFails : Bool) (s : Status) : Option Status :=
  match lockHeld with
  | true => none
  | false =>
      match writeFails with
      | true => some s
      | false => some s

/-- `CacheStatus.update_current_file` at lock level: acquire the (free) lock,
mutate, then call `save_status` with the lock still held. -/
def updateCurrentFileL (writeFails : Bool) (s : Status) (fileId : Nat) : Option Status :=
  saveStatusL true writeFails (updateCurrentFile s fileId)

/-- `CacheStatus.add_to_queue` at lock level. -/
def addToQueueL (writeFails : Bool) (s : Status) (fileIds : List Nat) : Option Status :=
  saveStatusL true writeFails (addToQueue s fileIds)

/-- `CacheStatus.mark_in_progress` at lock level. -/
def markInProgressL (writeFails : Bool) (s : Status) (fileId : Nat) (cacheType : String) :
    Option Status :=
  saveStatusL true writeFails (markInProgress s fileId cacheType)

/-- `CacheStatus.mark_completed` at lock level. -/
def markCompletedL (writeFails : Bool) (s : Status) (fileId : Nat) (cacheType : String)
    (generationTime : ℚ) : Option Status :=
  saveStatusL true writeFails (markCompleted s fileId cacheType generationTime)

/-- `CacheStatus.mark_failed` at lock level. -/
def markFailedL (writeFails : Bool) (s : Status) (fileId : Nat) (cacheType : String)
    (error : String) : Option Status :=
  saveStatusL true writeFails (markFailed s fileId cacheType error)

/-! ### File Sequence Oracle (`FileSequenceManager`)

`get_file_sequence` queries the external store; the sequence is passed in
as a parameter `seq`. -/

/-- Python slice `l[a : b]` for clamped indices `0 ≤ a`, `0 ≤ b`. -/
def pySlice {α : Type} (l : List α) (a b : Nat) : List α :=
  (l.drop a).take (b - a)

/-- `FileSequenceManager.get_cache_targets`: if the current id is absent
from the sequence, return `[]` (logged as a warning); otherwise slice
`seq[max(0, i - Nr) : min(len(seq), i + Nf + 1)]` around the first index
`i` of the current id. -/
def getCacheTargets (seq : List Nat) (currentFileId : Nat) (Nr Nf : Nat) : List Nat :=
  if currentFileId ∈ seq then
    let currentIndex : Nat := seq.indexOf currentFileId
    let startIndex : Int := max 0 ((currentIndex : Int) - (Nr : Int))
    let endIndex : Int := min (seq.length : Int) ((currentIndex : Int) + (Nf : Int) + 1)
    pySlice seq startIndex.toNat endIndex.toNat
  else []

/-! ### Cache Orchestrator (`CacheManager`) -/

/-- The `cache_types` flags the orchestrator consults. -/
structure CacheTypesConfig where
  segments : Bool
  plots : Bool
  verification : Bool

/-- `self.config.get("cache_types." + cache_type, True)` for the three
queried types. -/
def cacheTypeEnabled (cfg : CacheTypesConfig) (cacheType : String) : Bool :=
  if cacheType = "segments" then cfg.segments
  else if cacheType = "plots" then cfg.plots
  else if cacheType = "verification" then cfg.verification
  else true

/-- The default configuration enables all three cache types. -/
def defaultCacheTypes : CacheTypesConfig where
  segments := true
  plots := true
  verification := true

/-- `CacheManager._trigger_background_generation` (in-memory effect):
compute the cache targets, keep the targets for which some enabled cache
type is not yet in `completed` (`is_cached`), and if that list is nonempty
add it to the queue and submit one generation task per target.  Returns
the updated ledger and the list of file ids submitted to the worker pool. -/
def triggerBackgroundGeneration (cfg : CacheTypesConfig) (seq : List Nat) (Nr Nf : Nat)
    (s : Status) (currentFileId : Nat) : Status × List Nat :=
  let cacheTargets := getCacheTargets seq currentFileId Nr Nf
  let targetsToGenerate := cacheTargets.filter (fun fid =>
    ["segments", "plots", "verification"].any (fun ty =>
      cacheTypeEnabled cfg ty && !isCached s fid ty))
  if targetsToGenerate.isEmpty then (s, [])
  else (addToQueue s targetsToGenerate, targetsToGenerate)

/-- State of the on-disk cache file a point lookup reads: missing, present
but not valid JSON, or present and readable (payload abstracted). -/
inductive CacheFile where
  | absent
  | corrupt
  | readable (payload : Nat)

/-- `CacheManager.get_cached_segments`: if the file exists, open it,
increment `cache_hits`, and return the parsed payload; a parse failure is
caught, after which control falls through to the miss path, so a corrupt
file increments `cache_hits` and then also `cache_misses`; an absent file
increments `cache_misses`.  Returns the payload (or `none`) and the
updated statistics. -/
def getCachedSegments (file : CacheFile) (stats : Stats) : Option Nat × Stats :=
  match file with
  | CacheFile.readable payload =>
      (some payload, { stats with cacheHits := stats.cacheHits + 1 })
  | CacheFile.corrupt =>
      let stats1 := { stats with cacheHits := stats.cacheHits + 1 }
      (none, { stats1 with cacheMisses := stats1.cacheMisses + 1 })
  | CacheFile.absent =>
      (none, { stats with cacheMisses := stats.cacheMisses + 1 })

/-- `CacheManager.get_cached_plots`: if the file exists and parses, return
the payload, else return `none`; no statistics counter is touched on any
path. -/
def getCachedPlots (file : CacheFile) (stats : Stats) : Option Nat × Stats :=
  match file with
  | CacheFile.readable payload => (some payload, stats)
  | CacheFile.corrupt => (none, stats)
  | CacheFile.absent => (none, stats)

/-- An entry of a cache storage directory: its name, whether it is a
regular file, and its modification time (seconds). -/
structure CacheFileEntry where
  name : String
  isFile : Bool
  mtime : Int
deriving DecidableEq

/-- `CacheManager.cleanup_cache`: with
`cutoff = now - max_cache_age_hours hours`, remove every regular file whose
modification time is before the cutoff; the ledger is not consulted or
modified.  Modeled over one flattened directory listing; times are in
seconds, so the cutoff is `now - maxCacheAgeHours * 3600`. -/
def cleanupCache (now maxCacheAgeHours : Int) (files : List CacheFileEntry)
    (ledger : Status) : List CacheFileEntry × Status :=
  let cutoff := now - maxCacheAgeHours * 3600
  (files.filter (fun f => !(f.isFile && decide (f.mtime < cutoff))), ledger)

/-! ### Configuration Store (`CacheConfiguration`)

The configuration is a nested JSON document; non-mapping values are
abstracted as `leaf` payloads. -/

/-- A node of the configuration tree. -/
inductive ConfigVal where
  | obj : List (String × ConfigVal) → ConfigVal
  | leaf : Nat → ConfigVal

/-- The descent loop of `CacheConfiguration.set` on the pre-split key
path: walk every key but the last, creating `{}` for a missing key and
descending into the present value otherwise, then assign at the last key.
Descending into (or assigning into) a non-mapping value raises a
`TypeError`, rendered as `none`; `split(".")` never yields an empty list,
so the `[]` case is unreachable from the wrapper. -/
def setKeys : ConfigVal → List String → ConfigVal → Option ConfigVal
  | _, [], _ => none
  | ConfigVal.obj m, [k], v => some (ConfigVal.obj (dictSet m k v))
  | ConfigVal.leaf _, [_], _ => none
  | ConfigVal.obj m, k :: k2 :: rest, v =>
      let child := (dictGet m k).getD (ConfigVal.obj [])
      (setKeys child (k2 :: rest) v).map (fun c => ConfigVal.obj (dictSet m k c))
  | ConfigVal.leaf _, _ :: _ :: _, _ => none

/-- `CacheConfiguration.set` on pre-split keys: perform the tree mutation
and, on success, `save_config()`; the returned flag records that the whole
tree was persisted. -/
def configSet (tree : ConfigVal) (keys : List String) (value : ConfigVal) :
    Option (ConfigVal × Bool) :=
  (setKeys tree keys value).map (fun t => (t, true))

/-- `CacheConfiguration.get` on pre-split keys: walk the keys, returning
`none` (the default) as soon as a key is missing or the value reached is
not a mapping. -/
def getKeys : ConfigVal → List String → Option ConfigVal
  | t, [] => some t
  | ConfigVal.obj m, k :: rest =>
      match dictGet m k with
      | some c => getKeys c rest
      | none => none
  | ConfigVal.leaf _, _ :: _ => none

/-- Every strict prefix of the nonempty key path resolves, in the tree, to
a mapping or to nothing: exactly the condition under which the descent of
`CacheConfiguration.set` never meets a non-mapping value. -/
def pathOk : ConfigVal → List String → Bool
  | ConfigVal.obj _, [_] => true
  | ConfigVal.obj m, k :: k2 :: rest =>
      match dictGet m k with
      | some c => pathOk c (k2 :: rest)
      | none => true
  | ConfigVal.obj _, [] => false
  | ConfigVal.leaf _, _ => false

/-! ## Helper lemmas on the dictionary model -/

theorem dictGet_dictSet_self {α β : Type} [DecidableEq α] (m : Dict α β) (k : α) (v : β) :
    dictGet (dictSet m k v) k = some v := by
  induction m with
  | nil => simp [dictGet, dictSet]
  | cons p m ih =>
      by_cases h : p.1 = k
      · simp [dictGet, dictSet, h]
      · simp [dictGet, dictSet, h, ih]

theorem dictGet_dictRemove_self {α β : Type} [DecidableEq α] (m : Dict α β) (k : α) :
    dictGet (dictRemove m k) k = none := by
  induction m with
  | nil => simp [dictGet, dictRemove]
  | cons p m ih =>
      by_cases h : p.1 = k
      · simpa [dictRemove, h] using ih
      · simpa [dictRemove, dictGet, h] using ih

theorem popInProgress_not_mem (m : Dict Nat (List String)) (fileId : Nat)
    (cacheType : String) (inner : List String)
    (h : dictGet (popInProgress m fileId cacheType) fileId = some inner) :
    cacheType ∉ inner := by
  unfold popInProgress at h
  split at h
  · next hg => rw [hg] at h; simp at h
  · next inner0 hg =>
      split at h
      · rw [dictGet_dictRemove_self] at h
        simp at h
      · rw [dictGet_dictSet_self] at h
        cases h
        intro hmem
        have := (List.mem_filter.mp hmem).2
        simp at this

theorem filter_not_mem_append_self (q l : List Nat) :
    l.filter (fun fid =>
      !decide (fid ∈ q ++ l.filter (fun fid2 => !decide (fid2 ∈ q)))) = [] := by
  rw [List.filter_eq_nil_iff]
  intro x hx
  simp only [Bool.not_eq_true, decide_eq_true_eq, List.mem_append, List.mem_filter,
    Bool.not_eq_true', decide_eq_false_iff_not, not_not]
  by_cases hq : x ∈ q
  · exact Or.inl hq
  · exact Or.inr ⟨hx, hq⟩

theorem addToQueue_twice_queue (s : Status) (l : List Nat) :
    (addToQueue (addToQueue s l) l).generationQueue = (addToQueue s l).generationQueue := by
  show (s.generationQueue ++ l.filter (fun fid2 => !decide (fid2 ∈ s.generationQueue)))
        ++ l.filter (fun fid =>
            !decide (fid ∈ s.generationQueue
              ++ l.filter (fun fid2 => !decide (fid2 ∈ s.generationQueue))))
      = s.generationQueue ++ l.filter (fun fid2 => !decide (fid2 ∈ s.generationQueue))
  rw [filter_not_mem_append_self, List.append_nil]

/-! ## Claims -/

/-- Claim C1: the specification says every mutating Status Ledger operation
acquires the process-wide mutex, mutates, persists, releases, and returns.
In the code every such operation calls `save_status()` while already holding
the non-reentrant `threading.Lock`, and `save_status` re-acquires that lock,
so every mutating call blocks forever (`none` in the lock-level model) —
no call terminates, for any ledger state and any write outcome. -/
theorem mutating_ops_deadlock (writeFails : Bool) (s : Status) (fileId : Nat)
    (fileIds : List Nat) (cacheType : String) (generationTime : ℚ) (error : String) :
    updateCurrentFileL writeFails s fileId = none ∧
    addToQueueL writeFails s fileIds = none ∧
    markInProgressL writeFails s fileId cacheType = none ∧
    markCompletedL writeFails s fileId cacheType generationTime = none ∧
    markFailedL writeFails s fileId cacheType error = none :=
  ⟨rfl, rfl, rfl, rfl, rfl⟩

/-- Claim C10: a failing status-file write is indeed caught inside
`save_status`, which returns normally with the in-memory document retained
(first conjunct: `save_status` entered with the lock free and a raising
write).  But a mutating ledger operation never reaches the write at all:
it blocks forever re-acquiring the lock it already holds (second
conjunct), so it does not return normally as the claim states. -/
theorem save_failure_swallowed_but_op_deadlocks (s : Status) (fileId : Nat)
    (cacheType : String) (error : String) :
    saveStatusL false true s = some s ∧
    markFailedL true s fileId cacheType error = none :=
  ⟨rfl, rfl⟩

/-- Claim C2 counterexample: after `mark_completed(1, "segments", 2)`
followed by `mark_in_progress(1, "segments")`, the pair is recorded in
`completed` and in `in_progress` at the same time — `mark_in_progress`
does not remove the stale completed record, so a retried item is
simultaneously flagged complete and in-progress. -/
theorem mark_in_progress_keeps_completed_cex :
    isCached (markInProgress (markCompleted initialStatus 1 "segments" 2) 1 "segments")
        1 "segments" = true ∧
    inProgressContains
        (markInProgress (markCompleted initialStatus 1 "segments" 2) 1 "segments")
        1 "segments" = true :=
  ⟨rfl, rfl⟩

/-- Claim C2 (amended): `mark_completed` and `mark_failed` always clear the
`in_progress` record of the pair they settle, but `mark_in_progress` leaves
the `completed` and `failed` maps untouched, so entering in-progress does
not remove a stale completed or failed record. -/
theorem ledger_exclusivity_amended (s : Status) (fileId : Nat) (cacheType : String)
    (generationTime : ℚ) (error : String) :
    inProgressContains (markCompleted s fileId cacheType generationTime) fileId cacheType
        = false ∧
    inProgressContains (markFailed s fileId cacheType error) fileId cacheType = false ∧
    (markInProgress s fileId cacheType).completed = s.completed ∧
    (markInProgress s fileId cacheType).failed = s.failed := by
  refine ⟨?_, ?_, rfl, rfl⟩ <;>
  · show (match dictGet (popInProgress s.inProgress fileId cacheType) fileId with
      | some inner => decide (cacheType ∈ inner)
      | none => false) = false
    cases h : dictGet (popInProgress s.inProgress fileId cacheType) fileId with
    | none => rfl
    | some inner =>
        simpa using popInProgress_not_mem s.inProgress fileId cacheType inner h

/-- Claim C7: `mark_completed` maintains the running average as a streaming
mean — the stored average after a completion equals
`(previousAverage * (n - 1) + duration) / n` with `n` the post-increment
total count; and the completions `[2, 4, 6]` starting from a fresh ledger
read back `2, 3, 4` after each respective completion. -/
theorem mark_completed_streaming_mean :
    (∀ (s : Status) (fileId : Nat) (cacheType : String) (generationTime : ℚ),
      (markCompleted s fileId cacheType generationTime).stats.totalGenerated
          = s.stats.totalGenerated + 1 ∧
      (markCompleted s fileId cacheType generationTime).stats.generationTimeAvg
          = (s.stats.generationTimeAvg * ((s.stats.totalGenerated + 1 : ℚ) - 1)
              + generationTime) / (s.stats.totalGenerated + 1 : ℚ)) ∧
    (markCompleted initialStatus 1 "segments" 2).stats.generationTimeAvg = 2 ∧
    (markCompleted (markCompleted initialStatus 1 "segments" 2) 1 "plots" 4).stats.generationTimeAvg = 3 ∧
    (markCompleted (markCompleted (markCompleted initialStatus 1 "segments" 2) 1 "plots" 4)
        2 "segments" 6).stats.generationTimeAvg = 4 := by
  refine ⟨fun s fileId cacheType generationTime => ⟨rfl, ?_⟩, ?_, ?_, ?_⟩
  · show (s.stats.generationTimeAvg * (((s.stats.totalGenerated + 1 : Nat) : ℚ) - 1)
        + generationTime) / ((s.stats.totalGenerated + 1 : Nat) : ℚ) = _
    push_cast
    ring_nf
  · norm_num [markCompleted, initialStatus]
  · norm_num [markCompleted, initialStatus]
  · norm_num [markCompleted, initialStatus]

/-- Claim C3: for a current id present in the sequence at (first) index `i`,
`get_cache_targets` returns exactly the contiguous slice
`seq[max(0, i - Nr) : min(len(seq), i + Nf + 1)]`, clamped at both ends
with no wraparound: the result is `take`-then-`drop` of the sequence at
those bounds, its length is `min len (i + Nf + 1) - (i - Nr)`, and its
`j`-th element is element `(i - Nr) + j` of the sequence (Nat
subtraction `i - Nr` equals `max 0 (i - Nr)`). -/
theorem get_cache_targets_slice (seq : List Nat) (current : Nat) (Nr Nf : Nat)
    (hmem : current ∈ seq) :
    getCacheTargets seq current Nr Nf =
      (seq.take (min seq.length (seq.indexOf current + Nf + 1))).drop
        (seq.indexOf current - Nr) ∧
    (getCacheTargets seq current Nr Nf).length =
      min seq.length (seq.indexOf current + Nf + 1) - (seq.indexOf current - Nr) ∧
    ∀ j, j < min seq.length (seq.indexOf current + Nf + 1) - (seq.indexOf current - Nr) →
      (getCacheTargets seq current Nr Nf)[j]? = seq[seq.indexOf current - Nr + j]? := by
  have hidx : seq.indexOf current < seq.length := List.indexOf_lt_length.mpr hmem
  have hunfold : getCacheTargets seq current Nr Nf
      = pySlice seq (max 0 ((seq.indexOf current : Int) - (Nr : Int))).toNat
          (min (seq.length : Int) ((seq.indexOf current : Int) + (Nf : Int) + 1)).toNat := by
    unfold getCacheTargets
    rw [if_pos hmem]
  have hstart : (max 0 ((seq.indexOf current : Int) - (Nr : Int))).toNat
      = seq.indexOf current - Nr := by
    rcases le_total ((seq.indexOf current : Int) - (Nr : Int)) 0 with h | h
    · rw [max_eq_left h]; omega
    · rw [max_eq_right h]; omega
  have hend : (min (seq.length : Int) ((seq.indexOf current : Int) + (Nf : Int) + 1)).toNat
      = min seq.length (seq.indexOf current + Nf + 1) := by
    rcases le_total ((seq.length : Int)) ((seq.indexOf current : Int) + (Nf : Int) + 1)
        with h | h
    · rw [min_eq_left h, Nat.min_eq_left (by exact_mod_cast h)]; omega
    · rw [min_eq_right h, Nat.min_eq_right (by exact_mod_cast h)]; omega
  rw [hunfold, hstart, hend]
  have hse : seq.indexOf current - Nr ≤ min seq.length (seq.indexOf current + Nf + 1) := by
    omega
  have htd : pySlice seq (seq.indexOf current - Nr)
        (min seq.length (seq.indexOf current + Nf + 1))
      = (seq.take (min seq.length (seq.indexOf current + Nf + 1))).drop
        (seq.indexOf current - Nr) := by
    unfold pySlice
    rw [List.take_drop, Nat.add_sub_cancel' hse]
  refine ⟨htd, ?_, ?_⟩
  · unfold pySlice
    rw [List.length_take, List.length_drop]
    omega
  · intro j hj
    unfold pySlice
    rw [List.getElem?_take_of_lt hj, List.getElem?_drop]

/-- Claim C3 witness: the worked example of the specification — for the
sequence `[101..130]` with `Nr = 3`, `Nf = 10` and current id `110`
(index 9), the targets are `[107..120]` inclusive, 14 items. -/
theorem get_cache_targets_slice_witness :
    (110 : Nat) ∈ List.range' 101 30 ∧
    getCacheTargets (List.range' 101 30) 110 3 10 = List.range' 107 14 ∧
    (List.range' 107 14).length = 14 := by
  refine ⟨by decide, ?_, by decide⟩
  have h := get_cache_targets_slice (List.range' 101 30) 110 3 10 (by decide)
  rw [h.1]
  decide

/-- Claim C4 counterexample: with the sequence `[7]`, window `(0, 0)`, all
cache types enabled and a fresh ledger, a first `_trigger_background_generation`
call submits item 7; a second call with no ledger change in between submits
item 7 to the worker pool again (the pre-submission `is_cached` check
consults only `completed`, not `in_progress`), instead of submitting
nothing as the claim states. -/
theorem trigger_resubmits_cex :
    (triggerBackgroundGeneration defaultCacheTypes [7] 0 0 initialStatus 7).2 = [7] ∧
    (triggerBackgroundGeneration defaultCacheTypes [7] 0 0
      (triggerBackgroundGeneration defaultCacheTypes [7] 0 0 initialStatus 7).1 7).2
      = [7] :=
  ⟨rfl, rfl⟩

/-- Claim C4 (amended): calling `_trigger_background_generation` twice in a
row with no ledger change between the calls leaves the generation queue
exactly as after the first call (`add_to_queue` has set semantics), but the
pre-submission check consults only `completed`, so the second call submits
to the worker pool exactly the same target list as the first call —
including targets already in progress — rather than submitting nothing. -/
theorem trigger_idempotent_amended (cfg : CacheTypesConfig) (seq : List Nat) (Nr Nf : Nat)
    (s : Status) (currentFileId : Nat) :
    (triggerBackgroundGeneration cfg seq Nr Nf
        (triggerBackgroundGeneration cfg seq Nr Nf s currentFileId).1
        currentFileId).1.generationQueue
      = (triggerBackgroundGeneration cfg seq Nr Nf s currentFileId).1.generationQueue ∧
    (triggerBackgroundGeneration cfg seq Nr Nf
        (triggerBackgroundGeneration cfg seq Nr Nf s currentFileId).1 currentFileId).2
      = (triggerBackgroundGeneration cfg seq Nr Nf s currentFileId).2 := by
  by_cases hT : ((getCacheTargets seq currentFileId Nr Nf).filter (fun fid =>
      ["segments", "plots", "verification"].any (fun ty =>
        cacheTypeEnabled cfg ty && !isCached s fid ty))).isEmpty
  · unfold triggerBackgroundGeneration
    rw [if_pos hT]
    simp only
    rw [if_pos hT]
    exact ⟨rfl, rfl⟩
  · unfold triggerBackgroundGeneration
    rw [if_neg hT]
    simp only
    rw [show (fun fid =>
        ["segments", "plots", "verification"].any (fun ty =>
          cacheTypeEnabled cfg ty
            && !isCached (addToQueue s ((getCacheTargets seq currentFileId Nr Nf).filter
                (fun fid2 => ["segments", "plots", "verification"].any (fun ty =>
                  cacheTypeEnabled cfg ty && !isCached s fid2 ty)))) fid ty))
      = (fun fid => ["segments", "plots", "verification"].any (fun ty =>
          cacheTypeEnabled cfg ty && !isCached s fid ty)) from rfl]
    rw [if_neg hT]
    exact ⟨addToQueue_twice_queue s _, rfl⟩

/-- Claim C5 counterexample: one `get_cached_segments` call on a present
but corrupt cache file increments the hit counter (before parsing) and
then also the miss counter — a single call increments both counters, and
the corrupt file is not counted as exactly one miss. -/
theorem corrupt_file_double_count_cex :
    getCachedSegments CacheFile.corrupt initialStatus.stats
      = (none, { totalGenerated := 0, cacheHits := 1, cacheMisses := 1,
                 generationTimeAvg := 0 }) :=
  rfl

/-- Claim C5 (amended): `get_cached_segments` on a present readable file
increments the hit counter exactly once and returns the payload; on an
absent file increments the miss counter exactly once and returns absent;
on a present but corrupt file it increments the hit counter once and the
miss counter once and returns absent, never raising.  `get_cached_plots`
returns the payload or absent but never touches either counter. -/
theorem cached_lookup_counters_amended (stats : Stats) (payload : Nat) :
    getCachedSegments (CacheFile.readable payload) stats
      = (some payload, { stats with cacheHits := stats.cacheHits + 1 }) ∧
    getCachedSegments CacheFile.absent stats
      = (none, { stats with cacheMisses := stats.cacheMisses + 1 }) ∧
    getCachedSegments CacheFile.corrupt stats
      = (none, { stats with cacheHits := stats.cacheHits + 1,
                            cacheMisses := stats.cacheMisses + 1 }) ∧
    (∀ file : CacheFile, (getCachedPlots file stats).2 = stats) := by
  refine ⟨rfl, rfl, rfl, fun file => ?_⟩
  cases file <;> rfl

/-- Claim C6 counterexample: `add_to_queue([5, 5])` on an empty queue
appends both copies — the membership filter is evaluated against the queue
contents as they were before the call, so an argument list with repeated
new ids leaves the queue with duplicates. -/
theorem add_to_queue_duplicate_cex :
    (addToQueue initialStatus [5, 5]).generationQueue = [5, 5] ∧
    ¬ (addToQueue initialStatus [5, 5]).generationQueue.Nodup := by
  exact ⟨rfl, by decide⟩

/-- Claim C6 (amended): `add_to_queue` appends exactly the argument ids not
already present in the queue, in argument order; provided the argument
list itself has no repeated ids, a duplicate-free queue stays
duplicate-free. -/
theorem add_to_queue_set_semantics_amended (s : Status) (ids : List Nat)
    (hids : ids.Nodup) (hq : s.generationQueue.Nodup) :
    (addToQueue s ids).generationQueue =
      s.generationQueue ++ ids.filter (fun fid => !decide (fid ∈ s.generationQueue)) ∧
    (addToQueue s ids).generationQueue.Nodup := by
  refine ⟨rfl, ?_⟩
  refine List.Nodup.append hq (hids.filter _) ?_
  intro x hxq hxf
  have hx := (List.mem_filter.mp hxf).2
  simp [hxq] at hx

/-- Claim C6 witness: enqueueing `[1, 2]` onto the fresh empty queue. -/
theorem add_to_queue_set_semantics_amended_witness :
    (addToQueue initialStatus [1, 2]).generationQueue =
      initialStatus.generationQueue ++
        [1, 2].filter (fun fid => !decide (fid ∈ initialStatus.generationQueue)) ∧
    (addToQueue initialStatus [1, 2]).generationQueue.Nodup :=
  add_to_queue_set_semantics_amended initialStatus [1, 2] (by decide) (by decide)

/-- Claim C8: `cleanup_cache` keeps exactly the directory entries that are
not regular files older than the cutoff `now - max_cache_age_hours` —
every strictly older file is removed and every other entry retained — and
it returns the ledger unchanged, in particular its `completed` and
`failed` records (the deliberate ledger/filesystem asymmetry). -/
theorem cleanup_age_filter_frame (now maxCacheAgeHours : Int)
    (files : List CacheFileEntry) (ledger : Status) :
    (cleanupCache now maxCacheAgeHours files ledger).2 = ledger ∧
    (cleanupCache now maxCacheAgeHours files ledger).2.completed = ledger.completed ∧
    (cleanupCache now maxCacheAgeHours files ledger).2.failed = ledger.failed ∧
    ∀ f : CacheFileEntry,
      f ∈ (cleanupCache now maxCacheAgeHours files ledger).1 ↔
        f ∈ files ∧ ¬(f.isFile = true ∧ f.mtime < now - maxCacheAgeHours * 3600) := by
  refine ⟨rfl, rfl, rfl, fun f => ?_⟩
  simp only [cleanupCache, List.mem_filter, Bool.not_eq_true', Bool.and_eq_false_iff,
    decide_eq_false_iff_not]
  constructor
  · rintro ⟨hf, h | h⟩
    · exact ⟨hf, fun hc => by rw [hc.1] at h; cases h⟩
    · exact ⟨hf, fun hc => h hc.2⟩
  · rintro ⟨hf, h⟩
    refine ⟨hf, ?_⟩
    by_cases hisf : f.isFile = true
    · exact Or.inr (fun hm => h ⟨hisf, hm⟩)
    · exact Or.inl (by revert hisf; cases f.isFile <;> simp)

/-- Claim C9 counterexample: with the in-memory tree `a ↦ 5` (a
non-mapping at the strict prefix `a`), `Configuration.Set("a.b", 7)`
raises a `TypeError` (modeled as `none`) instead of succeeding: the
descent only creates an intermediate mapping when the component is
missing, not when it is present as a non-mapping. -/
theorem config_set_raises_cex :
    configSet (ConfigVal.obj [("a", ConfigVal.leaf 5)]) ["a", "b"] (ConfigVal.leaf 7)
      = none :=
  rfl

theorem setKeys_ok (keys : List String) : ∀ tree value : ConfigVal,
    pathOk tree keys = true →
    ∃ tree2, setKeys tree keys value = some tree2 ∧ getKeys tree2 keys = some value := by
  induction keys with
  | nil =>
      intro tree value hok
      cases tree <;> simp [pathOk] at hok
  | cons k rest ih =>
      intro tree value hok
      cases rest with
      | nil =>
          cases tree with
          | leaf n => simp [pathOk] at hok
          | obj m =>
              refine ⟨ConfigVal.obj (dictSet m k value), rfl, ?_⟩
              simp [getKeys, dictGet_dictSet_self]
      | cons k2 rest2 =>
          cases tree with
          | leaf n => simp [pathOk] at hok
          | obj m =>
              cases hg : dictGet m k with
              | some c =>
                  have hok2 : pathOk c (k2 :: rest2) = true := by
                    simpa [pathOk, hg] using hok
                  obtain ⟨c2, hs2, hg2⟩ := ih c value hok2
                  refine ⟨ConfigVal.obj (dictSet m k c2), ?_, ?_⟩
                  · simp [setKeys, hg, hs2]
                  · simp [getKeys, dictGet_dictSet_self, hg2]
              | none =>
                  have hok2 : pathOk (ConfigVal.obj []) (k2 :: rest2) = true := by
                    cases rest2 <;> simp [pathOk, dictGet]
                  obtain ⟨c2, hs2, hg2⟩ := ih (ConfigVal.obj []) value hok2
                  refine ⟨ConfigVal.obj (dictSet m k c2), ?_, ?_⟩
                  · simp [setKeys, hg, hs2]
                  · simp [getKeys, dictGet_dictSet_self, hg2]

/-- Claim C9 (amended): `Configuration.Set(dottedPath, value)` succeeds
for every dotted path along which each strict prefix currently resolves to
a mapping or to nothing: it creates intermediate mappings for the missing
components, stores the value so that a subsequent `Get` of the path reads
it back, and immediately persists the whole tree.  (When some strict
prefix maps to a non-mapping value, it raises instead — see the
counterexample.) -/
theorem config_set_creates_intermediates_amended (tree : ConfigVal) (keys : List String)
    (value : ConfigVal) (hok : pathOk tree keys = true) :
    ∃ tree2, configSet tree keys value = some (tree2, true) ∧
      getKeys tree2 keys = some value := by
  obtain ⟨t2, hs, hg⟩ := setKeys_ok keys tree value hok
  exact ⟨t2, by simp [configSet, hs], hg⟩

/-- Claim C9 witness: setting `cache_window.Nr` to `5` in a tree where the
prefix `cache_window` is a mapping succeeds, persists, and reads back. -/
theorem config_set_creates_intermediates_amended_witness :
    pathOk (ConfigVal.obj [("cache_window", ConfigVal.obj [("Nr", ConfigVal.leaf 3)])])
        ["cache_window", "Nr"] = true ∧
    ∃ tree2,
      configSet (ConfigVal.obj [("cache_window", ConfigVal.obj [("Nr", ConfigVal.leaf 3)])])
          ["cache_window", "Nr"] (ConfigVal.leaf 5) = some (tree2, true) ∧
      getKeys tree2 ["cache_window", "Nr"] = some (ConfigVal.leaf 5) :=
  ⟨rfl, config_set_creates_intermediates_amended _ _ _ rfl⟩

end ArcCache
